import Mathlib

/-!
Verification development for the interview-practice application.

The persistence layer (`database.py`) is modelled as a pure state
(`DbState`) holding the rows of each SQLite table; every database
operation becomes an explicit state transition.  SQL `CURRENT_TIMESTAMP`
values are passed in as an explicit `now : Nat` argument.  Python strings
are modelled as `List Char`; Python floats (scores, word timings) are
modelled as rationals.  The JSON-parsing stage of the LLM gateway
(`ai_engine.py`) is modelled with an abstract parser `loads`, since
`json.loads` is a library function external to the repository; the
fence-stripping code around it is translated verbatim.
-/

namespace InterviewSim

/-- Python strings are modelled as lists of characters. -/
abbrev Str := List Char

/-- Characters removed by Python `str.strip()` with no argument. -/
def pyIsSpace (c : Char) : Bool :=
  c = ' ' || c = '\t' || c = '\n' || c = '\x0b' || c = '\x0c' || c = '\r'

/-- Python `s.strip()`: remove whitespace from both ends. -/
def pyStrip (s : Str) : Str :=
  ((s.dropWhile pyIsSpace).reverse.dropWhile pyIsSpace).reverse

/-- Split a string at the first occurrence of `pat`, returning the parts
before and after it, or `none` when `pat` does not occur. -/
def splitFirstList (pat : Str) : Str → Option (Str × Str)
  | [] => if pat.isPrefixOf ([] : Str) then some ([], []) else none
  | c :: rest =>
    if pat.isPrefixOf (c :: rest) then some ([], (c :: rest).drop pat.length)
    else (splitFirstList pat rest).map (fun p => (c :: p.1, p.2))

/-- Python `s.split(sep, 1)` for a one-character separator: `none` models
the case where the separator is absent (Python then returns a
one-element list, so indexing `[1]` raises `IndexError`). -/
def pySplitOnce (c : Char) (s : Str) : Option (Str × Str) :=
  splitFirstList [c] s

/-- Python `s.rsplit(pat, 1)[0]`: the part of `s` before the last
occurrence of `pat`, or all of `s` when `pat` does not occur. -/
def pyRSplitOnceBefore (pat : Str) (s : Str) : Str :=
  match splitFirstList pat.reverse s.reverse with
  | some p => p.2.reverse
  | none => s

/-- The markdown code-fence marker. -/
def tick3 : Str := ['`', '`', '`']

-- ---------------------------------------------------------------------
-- Data model (`database.py`, `init_db` schema)
-- ---------------------------------------------------------------------

/-- Row of the `users` table. -/
structure UserRow where
  id : Nat
  name : Str
  email : Str
  passwordHash : Option Str
  salt : Option Str
deriving DecidableEq, Repr

/-- Row of the `interview_sessions` table.  Schema defaults: status
`in_progress`, all five scores `0`, `feedback_json` the empty object,
`tab_violations` `0`. -/
structure SessionRow where
  id : Nat
  userId : Nat
  sessionType : Str
  status : Str
  difficulty : Str
  topic : Option Str
  endedAt : Option Nat
  overallScore : ℚ
  technicalScore : ℚ
  communicationScore : ℚ
  reasoningScore : ℚ
  problemSolvingScore : ℚ
  /-- The decoded `feedback_json` dictionary, as key/value entries. -/
  feedback : List (Str × Str)
  tabViolations : Int
deriving DecidableEq, Repr

/-- Row of the `tab_violations` table. -/
structure TabViolationRow where
  sessionId : Nat
  violationType : Str
  details : Str
deriving DecidableEq, Repr

/-- Row of the `proctoring_violations` table. -/
structure ProctoringViolationRow where
  sessionId : Nat
  violationType : Str
  detail : Str
deriving DecidableEq, Repr

/-- Row of the `chat_messages` table.  `id` is the AUTOINCREMENT rowid,
so insertion order is ascending `id`. -/
structure ChatMessageRow where
  id : Nat
  sessionId : Nat
  role : Str
  content : Str
  messageType : Str
  timestamp : Nat
deriving DecidableEq, Repr

/-- Row of the `user_memory` table. -/
structure MemoryRow where
  id : Nat
  userId : Nat
  memoryKey : Str
  memoryValue : Str
  category : Str
  sourceSessionId : Option Nat
  createdAt : Nat
  updatedAt : Nat
deriving DecidableEq, Repr

/-- JSON values, used for gateway replies and recording payloads. -/
inductive JsonV where
  | null
  | bool (b : Bool)
  | num (q : ℚ)
  | str (s : Str)
  | arr (elems : List JsonV)
  | obj (fields : List (Str × JsonV))

/-- Row of the `interview_questions` table. -/
structure QuestionRow where
  id : Nat
  sessionId : Nat
  questionNumber : Nat
  questionText : Str
  questionType : Str
  difficulty : Str
  candidateResponseText : Option Str
  candidateCode : Option Str
  voiceTranscript : Option Str
  aiAnalysis : Option Str
  codeCorrectnessScore : ℚ
  approachScore : ℚ
  communicationScore : ℚ
  followUpQuestions : List Str
  suggestedSolutions : List JsonV

/-- Row of the `interview_recordings` table. -/
structure RecordingRow where
  id : Nat
  sessionId : Nat
  eventType : Str
  eventData : JsonV
  timestamp : Nat

/-- The database state: one list of rows per table used by the claims. -/
structure DbState where
  users : List UserRow
  sessions : List SessionRow
  tabViolationRows : List TabViolationRow
  proctoringRows : List ProctoringViolationRow
  questions : List QuestionRow
  chatMessages : List ChatMessageRow
  recordings : List RecordingRow
  userMemory : List MemoryRow

/-- The empty database. -/
def DbState.empty : DbState := ⟨[], [], [], [], [], [], [], []⟩

-- ---------------------------------------------------------------------
-- Persistence operations (`database.py`)
-- ---------------------------------------------------------------------

/-- Model of `create_user(name, email, password)`.  The `INSERT OR
IGNORE` is ignored exactly when a row with the same (UNIQUE) email
exists; `cursor.lastrowid` is then `0` on the fresh connection and the
function falls back to `SELECT id FROM users WHERE email = ?`.  The
credential pair stands for the salted hash `hash_password` produces
(`None` when no password is given). -/
def create_user (db : DbState) (name email : Str) (cred : Option (Str × Str)) :
    DbState × Nat :=
  match db.users.find? (fun u => u.email = email) with
  | some u => (db, u.id)
  | none =>
    let uid := db.users.length + 1
    ({ db with users := db.users ++
        [⟨uid, name, email, cred.map Prod.fst, cred.map Prod.snd⟩] }, uid)

/-- Model of `create_session(user_id, session_type, difficulty, topic)`:
inserts a session row with the schema defaults for every other column. -/
def create_session (db : DbState) (userId : Nat) (sessionType difficulty : Str)
    (topic : Option Str) : DbState × Nat :=
  let sid := db.sessions.length + 1
  ({ db with sessions := db.sessions ++
      [{ id := sid, userId := userId, sessionType := sessionType,
         status := "in_progress".data, difficulty := difficulty, topic := topic,
         endedAt := none, overallScore := 0, technicalScore := 0,
         communicationScore := 0, reasoningScore := 0, problemSolvingScore := 0,
         feedback := [], tabViolations := 0 }] }, sid)

/-- Model of `update_session_scores`: a single `UPDATE` statement that
writes the five scores, the feedback, `status = completed` and
`ended_at` together. -/
def update_session_scores (db : DbState) (sessionId : Nat) (now : Nat)
    (overall technical communication reasoning problemSolving : ℚ)
    (feedback : List (Str × Str)) : DbState :=
  { db with sessions := db.sessions.map (fun s =>
      if s.id = sessionId then
        { s with overallScore := overall, technicalScore := technical,
                 communicationScore := communication,
                 reasoningScore := reasoning,
                 problemSolvingScore := problemSolving,
                 feedback := feedback,
                 status := "completed".data, endedAt := some now }
      else s) }

/-- Model of `complete_session`: sets only `status` and `ended_at`. -/
def complete_session (db : DbState) (sessionId : Nat) (now : Nat) : DbState :=
  { db with sessions := db.sessions.map (fun s =>
      if s.id = sessionId then
        { s with status := "completed".data, endedAt := some now }
      else s) }

/-- Model of `increment_tab_violations`: inserts a `tab_violations` row
and increments the session counter, in one unit. -/
def increment_tab_violations (db : DbState) (sessionId : Nat)
    (violationType details : Str) : DbState :=
  { db with
    tabViolationRows := db.tabViolationRows ++ [⟨sessionId, violationType, details⟩],
    sessions := db.sessions.map (fun s =>
      if s.id = sessionId then { s with tabViolations := s.tabViolations + 1 }
      else s) }

/-- Model of `save_proctoring_violation`: inserts a
`proctoring_violations` row.  No session column is touched. -/
def save_proctoring_violation (db : DbState) (sessionId : Nat)
    (violationType detail : Str) : DbState :=
  { db with proctoringRows := db.proctoringRows ++ [⟨sessionId, violationType, detail⟩] }

/-- Model of `save_user_memory`: `INSERT ... ON CONFLICT(user_id,
memory_key) DO UPDATE SET memory_value = excluded.memory_value,
updated_at = CURRENT_TIMESTAMP, source_session_id =
excluded.source_session_id`.  When a row with the same `(user_id,
memory_key)` exists (the UNIQUE index allows at most one; the model
updates every matching row, which coincides with SQL on states
respecting the index) its value, update timestamp and source session
are overwritten; its `category` and `created_at` are left as they are.
Otherwise a fresh row is inserted with the given category. -/
def save_user_memory (db : DbState) (now userId : Nat)
    (memoryKey memoryValue category : Str) (sourceSessionId : Option Nat) : DbState :=
  if ∃ m ∈ db.userMemory, m.userId = userId ∧ m.memoryKey = memoryKey then
    { db with userMemory := db.userMemory.map (fun m =>
        if m.userId = userId ∧ m.memoryKey = memoryKey then
          { m with memoryValue := memoryValue, updatedAt := now,
                   sourceSessionId := sourceSessionId }
        else m) }
  else
    { db with userMemory := db.userMemory ++
        [⟨db.userMemory.length + 1, userId, memoryKey, memoryValue, category,
          sourceSessionId, now, now⟩] }

-- ---------------------------------------------------------------------
-- C1: violation counter vs. persisted violation event rows
-- ---------------------------------------------------------------------

/-- One persistence operation of the violation subsystem: a tab-switch
violation (`increment_tab_violations`) or a webcam violation
(`save_proctoring_violation`). -/
inductive ViolationOp where
  | tab (sessionId : Nat) (violationType details : Str)
  | webcam (sessionId : Nat) (violationType detail : Str)

/-- Apply one violation-persistence operation. -/
def applyViolationOp (db : DbState) : ViolationOp → DbState
  | .tab sid t d => increment_tab_violations db sid t d
  | .webcam sid t d => save_proctoring_violation db sid t d

/-- Apply a sequence of violation-persistence operations. -/
def applyViolationOps (db : DbState) (ops : List ViolationOp) : DbState :=
  ops.foldl applyViolationOp db

/-- Number of `tab_violations` rows recorded for a session. -/
def tabRowCount (db : DbState) (sid : Nat) : Nat :=
  (db.tabViolationRows.filter (fun r => r.sessionId = sid)).length

/-- Number of `proctoring_violations` rows recorded for a session. -/
def webcamRowCount (db : DbState) (sid : Nat) : Nat :=
  (db.proctoringRows.filter (fun r => r.sessionId = sid)).length

/-- The claimed invariant: every session's stored counter equals the
combined number of tab and webcam violation rows for it. -/
def counterMatchesCombined (db : DbState) : Prop :=
  ∀ s ∈ db.sessions, s.tabViolations = (tabRowCount db s.id + webcamRowCount db s.id : Nat)

/-- The invariant the code actually maintains: the counter equals the
number of `tab_violations` rows alone. -/
def counterMatchesTab (db : DbState) : Prop :=
  ∀ s ∈ db.sessions, s.tabViolations = (tabRowCount db s.id : Nat)

instance (db : DbState) : Decidable (counterMatchesCombined db) := by
  unfold counterMatchesCombined; infer_instance

instance (db : DbState) : Decidable (counterMatchesTab db) := by
  unfold counterMatchesTab; infer_instance

/-- A fresh database holding one just-created session. -/
def dbOneSession : DbState :=
  (create_session DbState.empty 1 "dsa".data "medium".data none).1

/-- Preservation of the tab-only counter invariant by a single
violation-persistence operation. -/
theorem counterMatchesTab_step (db : DbState) (op : ViolationOp)
    (h : counterMatchesTab db) : counterMatchesTab (applyViolationOp db op) := by
  cases op with
  | webcam sid t d =>
    intro s hs
    exact h s hs
  | tab sid t d =>
    intro s hs
    simp only [applyViolationOp, increment_tab_violations, List.mem_map] at hs
    obtain ⟨s₀, hs₀, rfl⟩ := hs
    have hbase := h s₀ hs₀
    simp only [tabRowCount] at hbase
    simp only [applyViolationOp, increment_tab_violations, tabRowCount,
      List.filter_append, List.length_append, List.filter_cons, List.filter_nil,
      decide_eq_true_eq]
    by_cases hid : s₀.id = sid
    · subst hid
      simp only [eq_self_iff_true, if_true, List.length_cons, List.length_nil]
      push_cast
      omega
    · have hid2 : ¬ sid = s₀.id := fun e => hid e.symm
      simp only [if_neg hid, if_neg hid2, List.length_nil]
      push_cast
      omega

/-- C1: the claimed combined-count invariant fails on the code.  On a
fresh one-session database (counter `0`, no violation rows, so the
invariant holds), a single `save_proctoring_violation` appends a webcam
violation row without touching the session's `tab_violations` counter,
so the counter (`0`) no longer equals the combined row count (`1`). -/
theorem C1_counterexample :
    counterMatchesCombined dbOneSession ∧
    ¬ counterMatchesCombined
        (save_proctoring_violation dbOneSession 1 "no_face".data "".data) := by
  constructor
  · decide
  · decide

/-- C1 (amended): after any sequence of `increment_tab_violations` and
`save_proctoring_violation` calls, each session's stored
`tab_violations` counter equals the number of persisted tab-violation
rows alone: `increment_tab_violations` appends a row and increments the
counter as one unit, while `save_proctoring_violation` appends a webcam
row without touching the counter, so webcam violations are excluded
from the stored tally. -/
theorem C1_amended (db : DbState) (ops : List ViolationOp)
    (h : counterMatchesTab db) : counterMatchesTab (applyViolationOps db ops) := by
  induction ops generalizing db with
  | nil => exact h
  | cons op rest ih => exact ih (applyViolationOp db op) (counterMatchesTab_step db op h)

/-- Witness for C1 (amended) on a concrete database and operation list. -/
theorem C1_amended_witness :
    counterMatchesTab
      (applyViolationOps dbOneSession
        [ViolationOp.tab 1 "tab_switch".data [],
         ViolationOp.webcam 1 "no_face".data [],
         ViolationOp.tab 1 "tab_switch".data []]) :=
  C1_amended dbOneSession _ (by decide)

-- ---------------------------------------------------------------------
-- C2: completed sessions, scores and feedback
-- ---------------------------------------------------------------------

/-- The claimed invariant: a completed session has all five scores in
the range 0–100 and non-empty feedback. -/
def completedImpliesScored (db : DbState) : Prop :=
  ∀ s ∈ db.sessions, s.status = "completed".data →
    (0 ≤ s.overallScore ∧ s.overallScore ≤ 100) ∧
    (0 ≤ s.technicalScore ∧ s.technicalScore ≤ 100) ∧
    (0 ≤ s.communicationScore ∧ s.communicationScore ≤ 100) ∧
    (0 ≤ s.reasoningScore ∧ s.reasoningScore ≤ 100) ∧
    (0 ≤ s.problemSolvingScore ∧ s.problemSolvingScore ≤ 100) ∧
    s.feedback ≠ []

instance (db : DbState) : Decidable (completedImpliesScored db) := by
  unfold completedImpliesScored; infer_instance

/-- C2: the claimed invariant fails on the code.  `complete_session`
marks a fresh session completed without writing any score or feedback,
leaving the schema default feedback (the empty object), so the session
is completed with empty feedback. -/
theorem C2_counterexample :
    ¬ completedImpliesScored (complete_session dbOneSession 1 5) := by
  decide

/-- C2 (amended): `update_session_scores` writes the five scores, the
feedback and the `completed` status together in one row update, so a
session completed through it with in-range scores and non-empty
feedback satisfies the claimed property; `complete_session`, however,
transitions a session to `completed` while leaving its scores and
feedback untouched, so completion alone does not imply scores are set
or feedback non-empty. -/
theorem C2_amended (db : DbState) (sid now : Nat)
    (o t c r p : ℚ) (fb : List (Str × Str))
    (ho : 0 ≤ o ∧ o ≤ 100) (ht : 0 ≤ t ∧ t ≤ 100) (hc : 0 ≤ c ∧ c ≤ 100)
    (hr : 0 ≤ r ∧ r ≤ 100) (hp : 0 ≤ p ∧ p ≤ 100) (hfb : fb ≠ []) :
    (∀ s ∈ (update_session_scores db sid now o t c r p fb).sessions,
      s.id = sid →
        s.status = "completed".data ∧ s.endedAt = some now ∧
        s.overallScore = o ∧ s.technicalScore = t ∧ s.communicationScore = c ∧
        s.reasoningScore = r ∧ s.problemSolvingScore = p ∧ s.feedback = fb ∧
        (0 ≤ s.overallScore ∧ s.overallScore ≤ 100) ∧
        (0 ≤ s.technicalScore ∧ s.technicalScore ≤ 100) ∧
        (0 ≤ s.communicationScore ∧ s.communicationScore ≤ 100) ∧
        (0 ≤ s.reasoningScore ∧ s.reasoningScore ≤ 100) ∧
        (0 ≤ s.problemSolvingScore ∧ s.problemSolvingScore ≤ 100) ∧
        s.feedback ≠ []) ∧
    (complete_session db sid now).sessions.map
        (fun s => (s.overallScore, s.technicalScore, s.communicationScore,
                   s.reasoningScore, s.problemSolvingScore, s.feedback)) =
      db.sessions.map
        (fun s => (s.overallScore, s.technicalScore, s.communicationScore,
                   s.reasoningScore, s.problemSolvingScore, s.feedback)) := by
  constructor
  · intro s hs hsid
    simp only [update_session_scores, List.mem_map] at hs
    obtain ⟨s₀, _, rfl⟩ := hs
    by_cases hid : s₀.id = sid
    · rw [if_pos hid]
      exact ⟨rfl, rfl, rfl, rfl, rfl, rfl, rfl, rfl, ho, ht, hc, hr, hp, hfb⟩
    · rw [if_neg hid] at hsid
      exact absurd hsid hid
  · simp only [complete_session, List.map_map]
    apply List.map_congr_left
    intro s _
    by_cases hid : s.id = sid
    · simp [hid]
    · simp [hid]

/-- Witness for C2 (amended) on a concrete session and concrete scores. -/
theorem C2_amended_witness :
    (∀ s ∈ (update_session_scores dbOneSession 1 7 80 75 70 65 60
              [("summary".data, "good".data)]).sessions,
      s.id = 1 →
        s.status = "completed".data ∧ s.endedAt = some 7 ∧
        s.overallScore = 80 ∧ s.technicalScore = 75 ∧ s.communicationScore = 70 ∧
        s.reasoningScore = 65 ∧ s.problemSolvingScore = 60 ∧
        s.feedback = [("summary".data, "good".data)] ∧
        (0 ≤ s.overallScore ∧ s.overallScore ≤ 100) ∧
        (0 ≤ s.technicalScore ∧ s.technicalScore ≤ 100) ∧
        (0 ≤ s.communicationScore ∧ s.communicationScore ≤ 100) ∧
        (0 ≤ s.reasoningScore ∧ s.reasoningScore ≤ 100) ∧
        (0 ≤ s.problemSolvingScore ∧ s.problemSolvingScore ≤ 100) ∧
        s.feedback ≠ []) ∧
    (complete_session dbOneSession 1 7).sessions.map
        (fun s => (s.overallScore, s.technicalScore, s.communicationScore,
                   s.reasoningScore, s.problemSolvingScore, s.feedback)) =
      dbOneSession.sessions.map
        (fun s => (s.overallScore, s.technicalScore, s.communicationScore,
                   s.reasoningScore, s.problemSolvingScore, s.feedback)) :=
  C2_amended dbOneSession 1 7 80 75 70 65 60 [("summary".data, "good".data)]
    (by norm_num) (by norm_num) (by norm_num) (by norm_num) (by norm_num)
    (by decide)

-- ---------------------------------------------------------------------
-- C3: memory upsert
-- ---------------------------------------------------------------------

/-- Argument record for one `save_user_memory` call. -/
structure SaveMemArgs where
  now : Nat
  userId : Nat
  memoryKey : Str
  memoryValue : Str
  category : Str
  sourceSessionId : Option Nat
deriving DecidableEq, Repr

/-- Apply one `save_user_memory` call. -/
def applySaveMem (db : DbState) (a : SaveMemArgs) : DbState :=
  save_user_memory db a.now a.userId a.memoryKey a.memoryValue a.category
    a.sourceSessionId

/-- Apply a sequence of `save_user_memory` calls. -/
def applySaveMems (db : DbState) (as : List SaveMemArgs) : DbState :=
  as.foldl applySaveMem db

/-- The `user_memory` rows stored for a given owner and key. -/
def memRowsFor (db : DbState) (uid : Nat) (key : Str) : List MemoryRow :=
  db.userMemory.filter (fun m => m.userId = uid ∧ m.memoryKey = key)

/-- The UNIQUE(user_id, memory_key) index: no two rows share an owner
and key. -/
def memUnique (db : DbState) : Prop :=
  db.userMemory.Pairwise (fun a b => ¬(a.userId = b.userId ∧ a.memoryKey = b.memoryKey))

instance (db : DbState) : Decidable (memUnique db) := by
  unfold memUnique; infer_instance

/-- Value of the most recent element of `as` targeting `(uid, key)`. -/
def lastSavedValue (as : List SaveMemArgs) (uid : Nat) (key : Str) : Option Str :=
  (as.reverse.find? (fun a => a.userId = uid ∧ a.memoryKey = key)).map
    (fun a => a.memoryValue)

/-- Filtering commutes with a map that preserves the predicate and is
the identity on elements satisfying it. -/
theorem filter_map_of_pres {α : Type} (g : α → α) (p : α → Bool) (l : List α)
    (h1 : ∀ x, p (g x) = p x) (h2 : ∀ x, p x = true → g x = x) :
    (l.map g).filter p = l.filter p := by
  induction l with
  | nil => rfl
  | cons x xs ih =>
    simp only [List.map_cons, List.filter_cons, h1]
    cases hp : p x with
    | true => simp [hp, h2 x hp, ih]
    | false => simp [hp, ih]

/-- A `save_user_memory` call for one key leaves the rows stored for
any other (owner, key) pair untouched. -/
theorem memRowsFor_applySaveMem_ne (db : DbState) (a : SaveMemArgs)
    (uid : Nat) (key : Str) (hne : ¬(a.userId = uid ∧ a.memoryKey = key)) :
    memRowsFor (applySaveMem db a) uid key = memRowsFor db uid key := by
  unfold applySaveMem save_user_memory memRowsFor
  split
  · refine filter_map_of_pres _ _ _ ?_ ?_
    · intro m
      by_cases hc : m.userId = a.userId ∧ m.memoryKey = a.memoryKey <;> simp [hc]
    · intro m hm
      simp only [decide_eq_true_eq] at hm
      rw [if_neg]
      intro hc
      exact hne ⟨hm.1 ▸ hc.1.symm ▸ rfl, hm.2 ▸ hc.2.symm ▸ rfl⟩
  · simp only [List.filter_append, List.filter_cons, List.filter_nil,
      decide_eq_true_eq]
    rw [if_neg hne, List.append_nil]

/-- After a `save_user_memory` call, the rows stored for the call's own
(owner, key) pair are non-empty and all carry the new value and the new
update timestamp. -/
theorem memRowsFor_applySaveMem_match (db : DbState) (a : SaveMemArgs) :
    memRowsFor (applySaveMem db a) a.userId a.memoryKey ≠ [] ∧
    ∀ m ∈ memRowsFor (applySaveMem db a) a.userId a.memoryKey,
      m.memoryValue = a.memoryValue ∧ m.updatedAt = a.now := by
  unfold applySaveMem save_user_memory memRowsFor
  split
  case isTrue hex =>
    obtain ⟨m₀, hm₀, hk⟩ := hex
    constructor
    · intro hnil
      have hmem : (if m₀.userId = a.userId ∧ m₀.memoryKey = a.memoryKey then
          { m₀ with memoryValue := a.memoryValue, updatedAt := a.now,
                    sourceSessionId := a.sourceSessionId }
          else m₀) ∈ (List.map (fun m =>
            if m.userId = a.userId ∧ m.memoryKey = a.memoryKey then
              { m with memoryValue := a.memoryValue, updatedAt := a.now,
                       sourceSessionId := a.sourceSessionId }
            else m) db.userMemory) := List.mem_map_of_mem _ hm₀
      rw [if_pos hk] at hmem
      have : ({ m₀ with memoryValue := a.memoryValue, updatedAt := a.now,
                        sourceSessionId := a.sourceSessionId } : MemoryRow) ∈
          (List.map (fun m =>
            if m.userId = a.userId ∧ m.memoryKey = a.memoryKey then
              { m with memoryValue := a.memoryValue, updatedAt := a.now,
                       sourceSessionId := a.sourceSessionId }
            else m) db.userMemory).filter
            (fun m => m.userId = a.userId ∧ m.memoryKey = a.memoryKey) := by
        rw [List.mem_filter]
        exact ⟨hmem, by simpa using hk⟩
      rw [hnil] at this
      exact absurd this (List.not_mem_nil _)
    · intro m hm
      rw [List.mem_filter] at hm
      obtain ⟨hmem, hkey⟩ := hm
      rw [List.mem_map] at hmem
      obtain ⟨m₁, _, rfl⟩ := hmem
      by_cases hc : m₁.userId = a.userId ∧ m₁.memoryKey = a.memoryKey
      · rw [if_pos hc]
        exact ⟨rfl, rfl⟩
      · rw [if_neg hc] at hkey ⊢
        simp only [decide_eq_true_eq] at hkey
        exact absurd hkey.1 (fun h1 => absurd hkey.2 (fun h2 => hc ⟨h1, h2⟩))
  case isFalse hex =>
    constructor
    · simp only [List.filter_append, List.filter_cons, List.filter_nil,
        decide_eq_true_eq, if_pos (And.intro rfl rfl)]
      intro hnil
      simpa using congrArg List.length hnil
    · intro m hm
      simp only [List.filter_append, List.mem_append, List.mem_filter] at hm
      cases hm with
      | inl hm =>
        exact absurd ⟨m, hm.1, by simpa using hm.2⟩ hex
      | inr hm =>
        have : m = ⟨db.userMemory.length + 1, a.userId, a.memoryKey,
            a.memoryValue, a.category, a.sourceSessionId, a.now, a.now⟩ := by
          simpa using hm.1
        rw [this]
        exact ⟨rfl, rfl⟩

/-- One `save_user_memory` call preserves the key-uniqueness index. -/
theorem memUnique_step (db : DbState) (a : SaveMemArgs)
    (h : memUnique db) : memUnique (applySaveMem db a) := by
  unfold applySaveMem save_user_memory memUnique
  split
  · refine List.Pairwise.map _ ?_ h
    intro m₁ m₂ hR hcontra
    apply hR
    have e1 : ∀ m : MemoryRow, ((if m.userId = a.userId ∧ m.memoryKey = a.memoryKey then
        { m with memoryValue := a.memoryValue, updatedAt := a.now,
                 sourceSessionId := a.sourceSessionId } else m) : MemoryRow).userId
          = m.userId := by
      intro m; by_cases hc : m.userId = a.userId ∧ m.memoryKey = a.memoryKey <;> simp [hc]
    have e2 : ∀ m : MemoryRow, ((if m.userId = a.userId ∧ m.memoryKey = a.memoryKey then
        { m with memoryValue := a.memoryValue, updatedAt := a.now,
                 sourceSessionId := a.sourceSessionId } else m) : MemoryRow).memoryKey
          = m.memoryKey := by
      intro m; by_cases hc : m.userId = a.userId ∧ m.memoryKey = a.memoryKey <;> simp [hc]
    exact ⟨(e1 m₁) ▸ (e1 m₂) ▸ hcontra.1, (e2 m₁) ▸ (e2 m₂) ▸ hcontra.2⟩
  case isFalse hex =>
    rw [List.pairwise_append]
    refine ⟨h, List.pairwise_singleton _ _, ?_⟩
    intro m hm x hx hcontra
    simp only [List.mem_singleton] at hx
    subst hx
    exact hex ⟨m, hm, hcontra.1, hcontra.2⟩

/-- Database after saving the same key twice with different values and
categories for owner 1 (end-to-end scenario C of the spec, with a
category change). -/
def dbMemTwice : DbState :=
  applySaveMems DbState.empty
    [⟨1, 1, "years_of_experience".data, "3 years".data, "general".data, none⟩,
     ⟨2, 1, "years_of_experience".data, "4 years".data, "skill".data, none⟩]

/-- C3: the claim fails on the code.  Saving key
`years_of_experience` for owner 1 first with category `general` and
then with value `4 years` and category `skill` leaves exactly one row,
holding the most recent value but still the original category
`general`: the `ON CONFLICT` clause updates `memory_value`,
`updated_at` and `source_session_id` only, never `category`. -/
theorem C3_counterexample :
    dbMemTwice.userMemory.length = 1 ∧
    (∀ m ∈ dbMemTwice.userMemory, m.memoryValue = "4 years".data) ∧
    ¬(∀ m ∈ dbMemTwice.userMemory, m.category = "skill".data) := by
  refine ⟨by decide, by decide, by decide⟩

/-- Key uniqueness is preserved by any sequence of saves. -/
theorem memUnique_saves (as : List SaveMemArgs) :
    ∀ db : DbState, memUnique db → memUnique (applySaveMems db as) := by
  induction as with
  | nil => exact fun db hu => hu
  | cons b rest ih =>
    exact fun db hu => ih (applySaveMem db b) (memUnique_step db b hu)

/-- Mapping a projection over a filtered list is unchanged by first
mapping a function that preserves both predicate and projection. -/
theorem filter_map_map_eq {α β : Type} (g : α → α) (p : α → Bool) (f : α → β)
    (l : List α) (h1 : ∀ x, p (g x) = p x) (h2 : ∀ x, f (g x) = f x) :
    ((l.map g).filter p).map f = (l.filter p).map f := by
  induction l with
  | nil => rfl
  | cons x xs ih =>
    simp only [List.map_cons, List.filter_cons, h1]
    cases hp : p x with
    | true => simp [hp, h2, ih]
    | false => simp [hp, ih]

/-- After any sequence of saves whose most recent save for (uid, key)
carried value `v`, the stored rows for (uid, key) are non-empty and all
hold `v`. -/
theorem memValue_after_saves (db : DbState) (as : List SaveMemArgs) (uid : Nat)
    (key : Str) :
    ∀ v : Str, lastSavedValue as uid key = some v →
      memRowsFor (applySaveMems db as) uid key ≠ [] ∧
      ∀ m ∈ memRowsFor (applySaveMems db as) uid key, m.memoryValue = v := by
  induction as using List.reverseRecOn with
  | nil =>
    intro v hv
    simp [lastSavedValue] at hv
  | append_singleton rest b ih =>
    intro v hv
    have hsplit : applySaveMems db (rest ++ [b]) =
        applySaveMem (applySaveMems db rest) b := by
      simp [applySaveMems, List.foldl_append]
    have hrev : (rest ++ [b]).reverse = b :: rest.reverse := by simp
    rw [lastSavedValue, hrev] at hv
    by_cases hb : b.userId = uid ∧ b.memoryKey = key
    · rw [List.find?_cons_of_pos _ (by simpa using hb)] at hv
      obtain rfl : b.memoryValue = v := by simpa using hv
      rw [hsplit]
      obtain ⟨hb1, hb2⟩ := hb
      subst hb1
      subst hb2
      exact ⟨(memRowsFor_applySaveMem_match _ b).1,
        fun m hm => ((memRowsFor_applySaveMem_match _ b).2 m hm).1⟩
    · rw [List.find?_cons_of_neg _ (by simpa using hb)] at hv
      rw [hsplit, memRowsFor_applySaveMem_ne _ b uid key hb]
      exact ih v hv

/-- A save leaves the stored category for its key unchanged when the
key already exists, and records the given category when it is new. -/
theorem memCategory_after_save (db : DbState) (a : SaveMemArgs) :
    (memRowsFor (applySaveMem db a) a.userId a.memoryKey).map (fun m => m.category) =
      (if memRowsFor db a.userId a.memoryKey = [] then [a.category]
       else (memRowsFor db a.userId a.memoryKey).map (fun m => m.category)) := by
  unfold applySaveMem save_user_memory memRowsFor
  split
  case isTrue hex =>
    obtain ⟨m₀, hm₀, hk⟩ := hex
    have hne : db.userMemory.filter
        (fun m => decide (m.userId = a.userId ∧ m.memoryKey = a.memoryKey)) ≠ [] := by
      intro hnil
      have hmf : m₀ ∈ db.userMemory.filter
          (fun m => decide (m.userId = a.userId ∧ m.memoryKey = a.memoryKey)) :=
        List.mem_filter.mpr ⟨hm₀, by simpa using hk⟩
      rw [hnil] at hmf
      exact absurd hmf (List.not_mem_nil _)
    rw [if_neg hne]
    refine filter_map_map_eq _ _ _ _ ?_ ?_
    · intro m
      by_cases hc : m.userId = a.userId ∧ m.memoryKey = a.memoryKey <;> simp [hc]
    · intro m
      by_cases hc : m.userId = a.userId ∧ m.memoryKey = a.memoryKey <;> simp [hc]
  case isFalse hex =>
    have hnil : db.userMemory.filter
        (fun m => decide (m.userId = a.userId ∧ m.memoryKey = a.memoryKey)) = [] := by
      rw [List.filter_eq_nil_iff]
      intro m hm hc
      exact hex ⟨m, hm, by simpa using hc⟩
    rw [if_pos hnil, List.filter_append, hnil]
    simp

/-- C3 (amended): `save_user_memory` inserts a new row when the key is
unseen for the owner and otherwise updates the existing row's value,
update timestamp and source session in place, leaving the stored
category unchanged; after any sequence of saves there is at most one
row per (owner, key) and it holds the most recently saved value (the
category stays the one under which the key was first inserted). -/
theorem C3_amended (db : DbState) (as : List SaveMemArgs) (a : SaveMemArgs)
    (uid : Nat) (key v : Str)
    (hu : memUnique db) (hv : lastSavedValue as uid key = some v) :
    memUnique (applySaveMems db as) ∧
    memRowsFor (applySaveMems db as) uid key ≠ [] ∧
    (∀ m ∈ memRowsFor (applySaveMems db as) uid key, m.memoryValue = v) ∧
    ((memRowsFor (applySaveMem db a) a.userId a.memoryKey).map (fun m => m.category) =
      (if memRowsFor db a.userId a.memoryKey = [] then [a.category]
       else (memRowsFor db a.userId a.memoryKey).map (fun m => m.category))) :=
  ⟨memUnique_saves as db hu,
   (memValue_after_saves db as uid key v hv).1,
   (memValue_after_saves db as uid key v hv).2,
   memCategory_after_save db a⟩

/-- Witness for C3 (amended): scenario C of the spec, saving
`years_of_experience` twice for owner 1. -/
theorem C3_amended_witness :
    memUnique dbMemTwice ∧
    memRowsFor dbMemTwice 1 "years_of_experience".data ≠ [] ∧
    (∀ m ∈ memRowsFor dbMemTwice 1 "years_of_experience".data,
      m.memoryValue = "4 years".data) ∧
    ((memRowsFor (applySaveMem DbState.empty
        ⟨1, 1, "years_of_experience".data, "3 years".data, "general".data, none⟩)
        1 "years_of_experience".data).map (fun m => m.category) =
      (if memRowsFor DbState.empty 1 "years_of_experience".data = []
       then ["general".data]
       else (memRowsFor DbState.empty 1 "years_of_experience".data).map
         (fun m => m.category))) :=
  C3_amended DbState.empty
    [⟨1, 1, "years_of_experience".data, "3 years".data, "general".data, none⟩,
     ⟨2, 1, "years_of_experience".data, "4 years".data, "skill".data, none⟩]
    ⟨1, 1, "years_of_experience".data, "3 years".data, "general".data, none⟩
    1 "years_of_experience".data "4 years".data (by decide) (by decide)

-- ---------------------------------------------------------------------
-- C10: create_user with an existing email
-- ---------------------------------------------------------------------

/-- C10: when a user with the given (UNIQUE) email already exists,
`create_user` inserts nothing, leaves every stored row unchanged and
returns the existing user's id; otherwise it appends exactly one new
row and returns the fresh id. -/
theorem C10_create_user (db : DbState) (name email : Str)
    (cred : Option (Str × Str))
    (huniq : ∀ u₁ ∈ db.users, ∀ u₂ ∈ db.users,
      u₁.email = email → u₂.email = email → u₁ = u₂) :
    ((∃ u ∈ db.users, u.email = email) →
      (create_user db name email cred).1 = db ∧
      ∀ u ∈ db.users, u.email = email → (create_user db name email cred).2 = u.id) ∧
    ((∀ u ∈ db.users, u.email ≠ email) →
      (create_user db name email cred).1.users =
        db.users ++ [⟨db.users.length + 1, name, email,
          cred.map Prod.fst, cred.map Prod.snd⟩] ∧
      (create_user db name email cred).2 = db.users.length + 1) := by
  constructor
  · rintro ⟨u, hu, hue⟩
    unfold create_user
    cases hfind : db.users.find? (fun x => x.email = email) with
    | none =>
      exfalso
      have := List.find?_eq_none.mp hfind u hu
      simp [hue] at this
    | some u₀ =>
      have hmem := List.mem_of_find?_eq_some hfind
      have hpe : u₀.email = email := by simpa using List.find?_some hfind
      refine ⟨rfl, ?_⟩
      intro u₁ hu₁ hue₁
      rw [huniq u₀ hmem u₁ hu₁ hpe hue₁]
  · intro hall
    unfold create_user
    cases hfind : db.users.find? (fun x => x.email = email) with
    | some u₀ =>
      exact absurd (by simpa using List.find?_some hfind)
        (hall u₀ (List.mem_of_find?_eq_some hfind))
    | none =>
      exact ⟨rfl, rfl⟩

/-- A database holding a single registered user. -/
def dbOneUser : DbState :=
  (create_user DbState.empty "Alice".data "alice@mail.test".data none).1

/-- Witness for C10 on a concrete one-user database. -/
theorem C10_create_user_witness :
    ((∃ u ∈ dbOneUser.users, u.email = "alice@mail.test".data) →
      (create_user dbOneUser "Bob".data "alice@mail.test".data none).1 = dbOneUser ∧
      ∀ u ∈ dbOneUser.users, u.email = "alice@mail.test".data →
        (create_user dbOneUser "Bob".data "alice@mail.test".data none).2 = u.id) ∧
    ((∀ u ∈ dbOneUser.users, u.email ≠ "alice@mail.test".data) →
      (create_user dbOneUser "Bob".data "alice@mail.test".data none).1.users =
        dbOneUser.users ++ [⟨dbOneUser.users.length + 1, "Bob".data,
          "alice@mail.test".data, none, none⟩] ∧
      (create_user dbOneUser "Bob".data "alice@mail.test".data none).2 =
        dbOneUser.users.length + 1) :=
  C10_create_user dbOneUser "Bob".data "alice@mail.test".data none (by decide)

-- ---------------------------------------------------------------------
-- C8: chat message listing order
-- ---------------------------------------------------------------------

/-- Model of `save_chat_message`: appends a `chat_messages` row with the
next rowid and `timestamp = CURRENT_TIMESTAMP`, returning the id. -/
def save_chat_message (db : DbState) (now sessionId : Nat)
    (role content messageType : Str) : DbState × Nat :=
  let mid := db.chatMessages.length + 1
  ({ db with chatMessages := db.chatMessages ++
      [⟨mid, sessionId, role, content, messageType, now⟩] }, mid)

/-- The session's chat rows in insertion (rowid) order. -/
def chatRowsFor (db : DbState) (sid : Nat) : List ChatMessageRow :=
  db.chatMessages.filter (fun m => m.sessionId = sid)

/-- Contract of `get_chat_messages`: `SELECT * FROM chat_messages WHERE
session_id = ? ORDER BY timestamp`.  The SQL engine may return any
permutation of the session's rows that is non-decreasing in the
timestamp column; no secondary sort key is requested. -/
def isLegalChatListing (db : DbState) (sid : Nat) (l : List ChatMessageRow) : Prop :=
  l.Perm (chatRowsFor db sid) ∧ l.Pairwise (fun a b => a.timestamp ≤ b.timestamp)

/-- Two messages saved into one session within the same timestamp
granularity (both at time 5). -/
def dbTwoMsgs : DbState :=
  (save_chat_message
    (save_chat_message dbOneSession 5 1 "interviewer".data "hi".data "text".data).1
    5 1 "candidate".data "yo".data "text".data).1

/-- C8: the claim fails on the code.  With two messages saved in the
same timestamp granularity, the reversed listing also satisfies the
`ORDER BY timestamp` contract (it is a permutation sorted by the
timestamp column), yet it does not match insertion order: the query
has no tie-breaking sort key, so insertion order is not guaranteed. -/
theorem C8_counterexample :
    isLegalChatListing dbTwoMsgs 1
      [⟨2, 1, "candidate".data, "yo".data, "text".data, 5⟩,
       ⟨1, 1, "interviewer".data, "hi".data, "text".data, 5⟩] ∧
    [⟨2, 1, "candidate".data, "yo".data, "text".data, 5⟩,
     ⟨1, 1, "interviewer".data, "hi".data, "text".data, 5⟩] ≠
      chatRowsFor dbTwoMsgs 1 := by
  refine ⟨⟨by decide, by decide⟩, by decide⟩

/-- A permutation that is sorted non-decreasingly of a strictly sorted
list is that list. -/
theorem perm_pairwise_le_lt_eq {α : Type} (f : α → Nat) :
    ∀ (r l : List α), l.Perm r → l.Pairwise (fun a b => f a ≤ f b) →
      r.Pairwise (fun a b => f a < f b) → l = r := by
  intro r
  induction r with
  | nil =>
    intro l hp _ _
    exact hp.eq_nil
  | cons b rt ih =>
    intro l hp hsl hsr
    cases l with
    | nil => exact absurd hp.symm.eq_nil (List.cons_ne_nil b rt)
    | cons a lt =>
      have hab : a = b := by
        by_contra hne
        have hbl : b ∈ a :: lt := hp.mem_iff.mpr (List.mem_cons_self b rt)
        have hal : a ∈ b :: rt := hp.mem_iff.mp (List.mem_cons_self a lt)
        have hblt : b ∈ lt := by
          rcases List.mem_cons.mp hbl with h | h
          · exact absurd h.symm hne
          · exact h
        have hart : a ∈ rt := by
          rcases List.mem_cons.mp hal with h | h
          · exact absurd h hne
          · exact h
        have h1 : f a ≤ f b := (List.pairwise_cons.mp hsl).1 b hblt
        have h2 : f b < f a := (List.pairwise_cons.mp hsr).1 a hart
        omega
      subst hab
      rw [ih lt hp.cons_inv (List.pairwise_cons.mp hsl).2
        (List.pairwise_cons.mp hsr).2]

/-- C8 (amended): every listing satisfying the `ORDER BY timestamp`
contract is in non-decreasing timestamp order, and it matches insertion
order whenever the session's messages carry strictly increasing
timestamps; messages saved within the same timestamp granularity may be
returned in either order, since the query sorts by timestamp alone. -/
theorem C8_amended (db : DbState) (sid : Nat) (l : List ChatMessageRow)
    (hl : isLegalChatListing db sid l) :
    l.Pairwise (fun a b => a.timestamp ≤ b.timestamp) ∧
    ((chatRowsFor db sid).Pairwise (fun a b => a.timestamp < b.timestamp) →
      l = chatRowsFor db sid) :=
  ⟨hl.2, fun hstrict =>
    perm_pairwise_le_lt_eq (fun m => m.timestamp) (chatRowsFor db sid) l
      hl.1 hl.2 hstrict⟩

/-- Two messages saved into one session at distinct timestamps. -/
def dbTwoMsgsDistinct : DbState :=
  (save_chat_message
    (save_chat_message dbOneSession 5 1 "interviewer".data "hi".data "text".data).1
    6 1 "candidate".data "yo".data "text".data).1

/-- Witness for C8 (amended) on a concrete listing with distinct
timestamps. -/
theorem C8_amended_witness :
    (chatRowsFor dbTwoMsgsDistinct 1).Pairwise
      (fun a b => a.timestamp ≤ b.timestamp) ∧
    ((chatRowsFor dbTwoMsgsDistinct 1).Pairwise
      (fun a b => a.timestamp < b.timestamp) →
      chatRowsFor dbTwoMsgsDistinct 1 = chatRowsFor dbTwoMsgsDistinct 1) :=
  C8_amended dbTwoMsgsDistinct 1 (chatRowsFor dbTwoMsgsDistinct 1)
    ⟨List.Perm.refl _, by decide⟩

-- ---------------------------------------------------------------------
-- Gateway reply parsing (`ai_engine.py`)
-- ---------------------------------------------------------------------

/-- Result of running a Python block: a returned value or an uncaught
exception, identified by its class name. -/
inductive PyOutcome (α : Type) where
  | ok (v : α)
  | raised (exnName : Str)
deriving DecidableEq, Repr

/-- The fallback dictionary `extract_resume_skills` returns on
`json.JSONDecodeError`. -/
def extractResumeSkillsFallback : JsonV :=
  JsonV.obj
    [("skills".data, JsonV.arr []),
     ("experience".data, JsonV.arr []),
     ("education".data, JsonV.arr []),
     ("summary".data, JsonV.str "Unable to parse resume".data),
     ("primary_domain".data, JsonV.str "Unknown".data),
     ("years_of_experience".data, JsonV.str "Unknown".data),
     ("strongest_skills".data, JsonV.arr [])]

/-- The fallback question `generate_dsa_question` returns on
`json.JSONDecodeError` (the Two Sum problem, echoing the requested
difficulty). -/
def generateDsaQuestionFallback (difficulty : Str) : JsonV :=
  JsonV.obj
    [("title".data, JsonV.str "Two Sum".data),
     ("description".data, JsonV.str "Given an array of integers nums and an integer target, return indices of the two numbers such that they add up to target.".data),
     ("examples".data, JsonV.arr
       [JsonV.obj
         [("input".data, JsonV.str "nums = [2,7,11,15], target = 9".data),
          ("output".data, JsonV.str "[0,1]".data),
          ("explanation".data, JsonV.str "Because nums[0] + nums[1] == 9".data)]]),
     ("constraints".data, JsonV.arr
       [JsonV.str "2 <= nums.length <= 10^4".data,
        JsonV.str "-10^9 <= nums[i] <= 10^9".data]),
     ("hints".data, JsonV.arr [JsonV.str "Think about using a hash map".data]),
     ("expected_approach".data, JsonV.str "Use a hash map to store complements".data),
     ("time_complexity".data, JsonV.str "O(n)".data),
     ("space_complexity".data, JsonV.str "O(n)".data),
     ("topic_tags".data, JsonV.arr
       [JsonV.str "Array".data, JsonV.str "Hash Table".data]),
     ("difficulty".data, JsonV.str difficulty),
     ("starter_code_python".data, JsonV.str "def solution(nums, target):\n    # Your code here\n    pass".data)]

/-- The shared reply-handling block of the gateway operations:

    try:
        if result.startswith ⟨fence⟩: strip first line, rsplit off the
        trailing fence; return json.loads(result)
    except json.JSONDecodeError: return ⟨fallback⟩

`loads` abstracts `json.loads` (`none` = `JSONDecodeError`).  When the
reply starts with a fence but contains no newline, `split` returns a
one-element list and `[1]` raises an uncaught `IndexError`. -/
def parseGatewayReply (loads : Str → Option JsonV) (fallback : JsonV)
    (result : Str) : PyOutcome JsonV :=
  if tick3.isPrefixOf result then
    match pySplitOnce '\n' result with
    | none => PyOutcome.raised "IndexError".data
    | some p =>
      match loads (pyRSplitOnceBefore tick3 p.2) with
      | some j => PyOutcome.ok j
      | none => PyOutcome.ok fallback
  else
    match loads result with
    | some j => PyOutcome.ok j
    | none => PyOutcome.ok fallback

/-- The reply-handling block of `extract_resume_skills`. -/
def extract_resume_skills_parse (loads : Str → Option JsonV) (result : Str) :
    PyOutcome JsonV :=
  parseGatewayReply loads extractResumeSkillsFallback result

/-- The reply-handling block of `generate_dsa_question`. -/
def generate_dsa_question_parse (loads : Str → Option JsonV) (difficulty : Str)
    (result : Str) : PyOutcome JsonV :=
  parseGatewayReply loads (generateDsaQuestionFallback difficulty) result

/-- The fence-stripping stage in isolation: `none` marks the reply that
starts with a fence but contains no newline (the `IndexError` path). -/
def gatewayStrip? (r : Str) : Option Str :=
  if tick3.isPrefixOf r then
    (pySplitOnce '\n' r).map (fun p => pyRSplitOnceBefore tick3 p.2)
  else some r

/-- A JSON text wrapped in a markdown code fence, as the spec
describes: an opening fence line, the JSON text, a closing fence. -/
def fenceWrap (j : Str) : Str :=
  '`' :: '`' :: '`' :: 'j' :: 's' :: 'o' :: 'n' :: '\n' :: (j ++ '\n' :: tick3)

/-- Strings whose trailing newlines have been removed. -/
def stripTrailingNL (s : Str) : Str :=
  (s.reverse.dropWhile (fun c => c = '\n')).reverse

/-- A minimal concrete stand-in for `json.loads`, used to instantiate
the abstract parser in witnesses: accepts the empty object and the
literal 1, with any trailing newlines, and rejects everything else. -/
def demoLoads (s : Str) : Option JsonV :=
  if stripTrailingNL s = ['\x7b', '\x7d'] then some (JsonV.obj [])
  else if stripTrailingNL s = ['1'] then some (JsonV.num 1)
  else none

/-- The demo parser ignores a trailing newline, as `json.loads` does. -/
theorem demoLoads_newline (s : Str) : demoLoads (s ++ ['\n']) = demoLoads s := by
  unfold demoLoads stripTrailingNL
  simp [List.dropWhile_cons]

/-- A one-character prefix test on a cons cell. -/
theorem singleton_isPrefixOf_cons (a c : Char) (rest : Str) :
    ([a] : Str).isPrefixOf (c :: rest) = (a == c) := by
  simp [List.isPrefixOf]

/-- Unfolding lemma for `splitFirstList` when the pattern matches at
the head. -/
theorem splitFirstList_head (pat : Str) (c : Char) (rest : Str)
    (h : pat.isPrefixOf (c :: rest) = true) :
    splitFirstList pat (c :: rest) = some ([], (c :: rest).drop pat.length) := by
  rw [splitFirstList]
  simp [h]

/-- Splitting on the newline that terminates a newline-free prefix. -/
theorem splitFirstList_newline_prefix :
    ∀ (pre : Str), (∀ c ∈ pre, ¬c = '\n') → ∀ j : Str,
      splitFirstList ['\n'] (pre ++ '\n' :: j) = some (pre, j) := by
  intro pre
  induction pre with
  | nil =>
    intro _ j
    rw [List.nil_append,
      splitFirstList_head _ _ _ (by rw [singleton_isPrefixOf_cons]; decide)]
    rfl
  | cons c cs ih =>
    intro hc j
    have hcne : ¬c = '\n' := hc c (List.mem_cons_self c cs)
    have hbeq : (('\n' : Char) == c) = false := by
      simp [hcne]
      intro h
      exact hcne h.symm
    rw [List.cons_append, splitFirstList]
    rw [show (['\n'] : Str).isPrefixOf (c :: (cs ++ '\n' :: j)) = false by
      rw [singleton_isPrefixOf_cons]; exact hbeq]
    simp only [Bool.false_eq_true, if_false]
    rw [ih (fun x hx => hc x (List.mem_cons_of_mem c hx)) j]
    rfl

/-- The first newline of a fence-wrapped text ends the opening fence
line. -/
theorem pySplitOnce_fenceWrap (j : Str) :
    pySplitOnce '\n' (fenceWrap j) =
      some (['`', '`', '`', 'j', 's', 'o', 'n'], j ++ '\n' :: tick3) :=
  splitFirstList_newline_prefix ['`', '`', '`', 'j', 's', 'o', 'n'] (by decide)
    (j ++ '\n' :: tick3)

/-- Removing everything from the last fence marker onward recovers the
JSON text plus the newline that preceded the closing fence. -/
theorem pyRSplit_strip_fence (j : Str) :
    pyRSplitOnceBefore tick3 (j ++ '\n' :: tick3) = j ++ ['\n'] := by
  unfold pyRSplitOnceBefore
  have hrev : (j ++ '\n' :: tick3).reverse = '`' :: '`' :: '`' :: '\n' :: j.reverse := by
    simp [tick3]
  rw [hrev]
  have hpref : (tick3.reverse).isPrefixOf ('`' :: '`' :: '`' :: '\n' :: j.reverse) = true := by
    simp [tick3, List.isPrefixOf]
  rw [splitFirstList_head _ _ _ hpref]
  simp [tick3]

/-- A fence-wrapped reply starts with the fence marker. -/
theorem tick3_prefix_fenceWrap (j : Str) :
    tick3.isPrefixOf (fenceWrap j) = true := by
  simp [tick3, fenceWrap, List.isPrefixOf]

/-- C4: the claim fails on the code.  The reply consisting of a bare
fence marker with no newline cannot be parsed as JSON, yet
`extract_resume_skills` does not return its fallback: the fence
cleanup indexes `split(\x22\n\x22, 1)[1]`, which raises an uncaught
`IndexError` that propagates to the caller. -/
theorem C4_counterexample :
    extract_resume_skills_parse demoLoads tick3 =
      PyOutcome.raised "IndexError".data := rfl

/-- Shared fallback behaviour of the reply-handling block. -/
theorem parseGatewayReply_fallback (loads : Str → Option JsonV) (fb : JsonV)
    (r s : Str) (hstrip : gatewayStrip? r = some s) (hfail : loads s = none) :
    parseGatewayReply loads fb r = PyOutcome.ok fb := by
  unfold gatewayStrip? at hstrip
  unfold parseGatewayReply
  by_cases hp : tick3.isPrefixOf r = true
  · rw [if_pos hp] at hstrip
    rw [if_pos hp]
    cases hsp : pySplitOnce '\n' r with
    | none =>
      rw [hsp] at hstrip
      exact absurd hstrip (by simp)
    | some p =>
      rw [hsp] at hstrip
      obtain rfl : pyRSplitOnceBefore tick3 p.2 = s := by simpa using hstrip
      simp only [hfail]
  · rw [if_neg hp] at hstrip
    rw [if_neg hp]
    obtain rfl : r = s := Option.some.inj hstrip
    rw [hfail]

/-- C4 (amended): for every upstream reply on which the fence cleanup
itself succeeds — every reply except one starting with a fence marker
and containing no newline — a JSON decode failure makes each gateway
operation return its documented deterministic fallback value instead of
raising; a fence-opening reply without a newline instead raises
`IndexError`.  Replies that do decode are returned as parsed, whatever
their shape. -/
theorem C4_amended (loads : Str → Option JsonV) (difficulty : Str) (r s : Str)
    (hstrip : gatewayStrip? r = some s) (hfail : loads s = none) :
    extract_resume_skills_parse loads r = PyOutcome.ok extractResumeSkillsFallback ∧
    generate_dsa_question_parse loads difficulty r =
      PyOutcome.ok (generateDsaQuestionFallback difficulty) :=
  ⟨parseGatewayReply_fallback loads extractResumeSkillsFallback r s hstrip hfail,
   parseGatewayReply_fallback loads (generateDsaQuestionFallback difficulty) r s
     hstrip hfail⟩

/-- Witness for C4 (amended) on a concrete unparsable reply. -/
theorem C4_amended_witness :
    extract_resume_skills_parse demoLoads "oops".data =
      PyOutcome.ok extractResumeSkillsFallback ∧
    generate_dsa_question_parse demoLoads "medium".data "oops".data =
      PyOutcome.ok (generateDsaQuestionFallback "medium".data) :=
  C4_amended demoLoads "medium".data "oops".data "oops".data rfl rfl

/-- C5: wrapping a reply in a markdown code fence is transparent: for
any JSON text (valid JSON never starts with a backtick) and any parser
that ignores a trailing newline, as `json.loads` does, every gateway
operation produces the same outcome on the fence-wrapped reply as on
the bare reply — the fence is stripped before parsing. -/
theorem C5_fence_transparent (loads : Str → Option JsonV) (fb : JsonV) (j : Str)
    (hfence : tick3.isPrefixOf j = false)
    (hnl : loads (j ++ ['\n']) = loads j) :
    parseGatewayReply loads fb (fenceWrap j) = parseGatewayReply loads fb j := by
  unfold parseGatewayReply
  rw [if_pos (tick3_prefix_fenceWrap j), if_neg (by simp [hfence]),
    pySplitOnce_fenceWrap]
  simp only [pyRSplit_strip_fence, hnl]

/-- Witness for C5 on the concrete JSON text `1` and the demo parser. -/
theorem C5_fence_transparent_witness :
    parseGatewayReply demoLoads extractResumeSkillsFallback (fenceWrap ['1']) =
      parseGatewayReply demoLoads extractResumeSkillsFallback ['1'] :=
  C5_fence_transparent demoLoads extractResumeSkillsFallback ['1'] (by decide)
    (demoLoads_newline ['1'])

-- ---------------------------------------------------------------------
-- Speech pattern analysis (`voice_handler.py`)
-- ---------------------------------------------------------------------

/-- Python `round` on a rational: round half to even. -/
def pythonRound (q : ℚ) : Int :=
  if q - Int.floor q < 1 / 2 then Int.floor q
  else if q - Int.floor q > 1 / 2 then Int.floor q + 1
  else if Int.floor q % 2 = 0 then Int.floor q else Int.floor q + 1

/-- Python `round(q, 1)`: round to one decimal place. -/
def roundTo1 (q : ℚ) : ℚ := (pythonRound (10 * q) : ℚ) / 10

/-- One Deepgram word-timing entry (keys `word`, `start`, `end`).  The
`end` key is called `stop` because `end` is reserved in Lean. -/
structure WordTiming where
  word : Str
  start : ℚ
  stop : ℚ
deriving DecidableEq, Repr

/-- The dictionary returned by `analyze_speech_patterns`. -/
structure SpeechAnalysis where
  speakingPaceWpm : Int
  fillerWordCount : Nat
  fillerWordsFound : List Str
  totalDurationSeconds : ℚ
  pauseCount : Nat
  avgPauseDuration : ℚ
deriving DecidableEq, Repr

/-- The all-zero analysis returned for an empty word list. -/
def zeroSpeechAnalysis : SpeechAnalysis := ⟨0, 0, [], 0, 0, 0⟩

/-- The filler-word set of `analyze_speech_patterns`. -/
def fillerWords : List Str :=
  ["um".data, "uh".data, "like".data, "you know".data, "basically".data,
   "actually".data, "so".data, "well".data, "I mean".data, "right".data,
   "okay".data]

/-- Characters removed by `.strip(".,!?")`. -/
def stripPunctChars : List Char := ['.', ',', '!', '?']

/-- Python `s.strip(".,!?")`. -/
def pyStripPunct (s : Str) : Str :=
  ((s.dropWhile (fun c => c ∈ stripPunctChars)).reverse.dropWhile
    (fun c => c ∈ stripPunctChars)).reverse

/-- Python `s.lower()`. -/
def pyLower (s : Str) : Str := s.map Char.toLower

/-- Model of `analyze_speech_patterns(words)`: speaking pace in words
per minute over the span from the first word's start to the last
word's end, filler-word occurrences, and pauses (inter-word gaps
strictly greater than one second). -/
def analyze_speech_patterns (words : List WordTiming) : SpeechAnalysis :=
  match words with
  | [] => zeroSpeechAnalysis
  | w0 :: rest =>
    let startTime := w0.start
    let endTime := (rest.getLastD w0).stop
    let duration := endTime - startTime
    let wpm : ℚ :=
      if duration > 0 then ((w0 :: rest).length : ℚ) / duration * 60 else 0
    let fillersFound :=
      ((w0 :: rest).map (fun w => pyStripPunct (pyLower w.word))).filter
        (fun t => t ∈ fillerWords)
    let gaps := ((w0 :: rest).zip rest).map (fun pr => pr.2.start - pr.1.stop)
    let pauses := gaps.filter (fun g => g > 1)
    { speakingPaceWpm := pythonRound wpm,
      fillerWordCount := fillersFound.length,
      fillerWordsFound := fillersFound,
      totalDurationSeconds := roundTo1 duration,
      pauseCount := pauses.length,
      avgPauseDuration :=
        if pauses.length ≠ 0 then roundTo1 (pauses.sum / (pauses.length : ℚ))
        else 0 }

/-- Placeholder entry for positional indexing specs. -/
def dummyWord : WordTiming := ⟨[], 0, 0⟩

/-- The consecutive-pairs zip of a list, written positionally. -/
theorem zip_tail_eq_range_map {α : Type} (d : α) :
    ∀ l : List α, l.zip l.tail =
      (List.range (l.length - 1)).map (fun i => (l.getD i d, l.getD (i + 1) d)) := by
  intro l
  induction l with
  | nil => rfl
  | cons a t ih =>
    cases t with
    | nil => rfl
    | cons b t2 =>
      have ih2 : (b :: t2).zip t2 =
          (List.range ((b :: t2).length - 1)).map
            (fun i => ((b :: t2).getD i d, (b :: t2).getD (i + 1) d)) := ih
      show (a, b) :: ((b :: t2).zip t2) = _
      rw [ih2]
      have hlen : (a :: b :: t2 : List α).length - 1 = t2.length + 1 := by
        simp
      rw [hlen, List.range_succ_eq_map]
      simp only [List.map_cons, List.map_map, List.length_cons,
        Nat.add_sub_cancel]
      refine congrArg₂ _ rfl ?_
      apply List.map_congr_left
      intro i _
      simp [Function.comp, List.getD_cons_succ]

/-- Filtering after mapping counts the composed predicate. -/
theorem length_filter_map {α β : Type} (g : α → β) (p : β → Bool) (l : List α) :
    ((l.map g).filter p).length = (l.filter (fun x => p (g x))).length := by
  induction l with
  | nil => rfl
  | cons x xs ih =>
    simp only [List.map_cons, List.filter_cons]
    cases hp : p (g x) <;> simp [hp, ih]

/-- C9: `analyze_speech_patterns` returns the all-zero analysis for an
empty word list; otherwise it reports the speaking pace as the
(half-to-even rounded) value of word count divided by the span from the
first word's start to the last word's end, times 60 — and 0 when that
span is not positive — and counts a pause for exactly those consecutive
word pairs whose gap (next start minus previous end) strictly exceeds
one second. -/
theorem C9_speech_metrics (words : List WordTiming) :
    (words = [] → analyze_speech_patterns words = zeroSpeechAnalysis) ∧
    (∀ w0 rest, words = w0 :: rest →
      (((rest.getLastD w0).stop - w0.start ≤ 0 →
        (analyze_speech_patterns words).speakingPaceWpm = 0) ∧
       ((rest.getLastD w0).stop - w0.start > 0 →
        (analyze_speech_patterns words).speakingPaceWpm =
          pythonRound ((words.length : ℚ) /
            ((rest.getLastD w0).stop - w0.start) * 60)))) ∧
    (analyze_speech_patterns words).pauseCount =
      ((List.range (words.length - 1)).filter
        (fun i => (words.getD (i + 1) dummyWord).start -
          (words.getD i dummyWord).stop > 1)).length := by
  refine ⟨?_, ?_, ?_⟩
  · intro h
    subst h
    rfl
  · intro w0 rest h
    subst h
    constructor
    · intro hd
      show pythonRound (if (rest.getLastD w0).stop - w0.start > 0 then _ else 0) = 0
      rw [if_neg (not_lt.mpr hd)]
      simp [pythonRound]
    · intro hd
      show pythonRound (if (rest.getLastD w0).stop - w0.start > 0 then _ else 0) = _
      rw [if_pos hd]
  · cases words with
    | nil => rfl
    | cons w0 rest =>
      show ((((w0 :: rest).zip rest).map (fun pr => pr.2.start - pr.1.stop)).filter
          (fun g => g > 1)).length = _
      have htail : ((w0 :: rest).zip rest) = ((w0 :: rest).zip (w0 :: rest).tail) := rfl
      rw [htail, zip_tail_eq_range_map dummyWord, List.map_map, length_filter_map]
      simp [Function.comp]

/-- Two concrete word timings: a positive span and one long pause. -/
def sampleW1 : WordTiming := ⟨"hi".data, 0, 1⟩

/-- Second sample word timing, starting 1.5 seconds after the first
ends. -/
def sampleW2 : WordTiming := ⟨"there".data, 5 / 2, 3⟩

/-- Witness for C9 on a concrete two-word timing list. -/
theorem C9_speech_metrics_witness :
    (analyze_speech_patterns [sampleW1, sampleW2]).speakingPaceWpm =
      pythonRound ((([sampleW1, sampleW2] : List WordTiming).length : ℚ) /
        (([sampleW2].getLastD sampleW1).stop - sampleW1.start) * 60) ∧
    (analyze_speech_patterns [sampleW1, sampleW2]).pauseCount =
      ((List.range (([sampleW1, sampleW2] : List WordTiming).length - 1)).filter
        (fun i => (([sampleW1, sampleW2] : List WordTiming).getD (i + 1) dummyWord).start -
          (([sampleW1, sampleW2] : List WordTiming).getD i dummyWord).stop > 1)).length :=
  ⟨((C9_speech_metrics [sampleW1, sampleW2]).2.1 sampleW1 [sampleW2] rfl).2
      (by norm_num [sampleW1, sampleW2]),
   (C9_speech_metrics [sampleW1, sampleW2]).2.2⟩

-- ---------------------------------------------------------------------
-- DSA interview submit handler (`pages/3_DSA_Interview.py`)
-- ---------------------------------------------------------------------

/-- Model of `save_question`: inserts an `interview_questions` row with
the schema defaults for the response and analysis columns. -/
def save_question (db : DbState) (sessionId questionNumber : Nat)
    (questionText questionType difficulty : Str) : DbState × Nat :=
  let qid := db.questions.length + 1
  ({ db with questions := db.questions ++
      [{ id := qid, sessionId := sessionId, questionNumber := questionNumber,
         questionText := questionText, questionType := questionType,
         difficulty := difficulty, candidateResponseText := none,
         candidateCode := none, voiceTranscript := none, aiAnalysis := none,
         codeCorrectnessScore := 0, approachScore := 0, communicationScore := 0,
         followUpQuestions := [], suggestedSolutions := [] }] }, qid)

/-- Model of `save_recording_event`: appends an `interview_recordings`
row. -/
def save_recording_event (db : DbState) (now sessionId : Nat) (eventType : Str)
    (eventData : JsonV) : DbState × Nat :=
  let eid := db.recordings.length + 1
  ({ db with recordings := db.recordings ++
      [⟨eid, sessionId, eventType, eventData, now⟩] }, eid)

/-- Model of `update_question_response`: one `UPDATE` that sets the
response, analysis and score columns of the question row (callers pass
the Python defaults explicitly: `none` for omitted text fields, `0`
scores, `[]` lists). -/
def update_question_response (db : DbState) (questionId : Nat)
    (candidateResponseText candidateCode voiceTranscript aiAnalysis : Option Str)
    (codeCorrectnessScore approachScore communicationScore : ℚ)
    (followUpQuestions : List Str) (suggestedSolutions : List JsonV) : DbState :=
  { db with questions := db.questions.map (fun q =>
      if q.id = questionId then
        { q with candidateResponseText := candidateResponseText,
                 candidateCode := candidateCode,
                 voiceTranscript := voiceTranscript,
                 aiAnalysis := aiAnalysis,
                 codeCorrectnessScore := codeCorrectnessScore,
                 approachScore := approachScore,
                 communicationScore := communicationScore,
                 followUpQuestions := followUpQuestions,
                 suggestedSolutions := suggestedSolutions }
      else q) }

/-- The Streamlit session state the submit handler reads and writes,
plus the database. -/
structure OrchestratorState where
  db : DbState
  dsaConversation : List (Str × Str)
  dsaVoiceTranscript : Str
  dsaLastAiMessage : Str
  dsaCurrentAnalysis : Option JsonV

/-- The projections of a successful `analyze_candidate_response` result
the handler uses: the parsed dictionary, its `json.dumps`
serialisation, the three sub-scores read from it, and the follow-up and
solution lists. -/
structure AnalysisResult where
  raw : JsonV
  rawText : Str
  codeCorrectnessScore : ℚ
  approachScore : ℚ
  communicationScore : ℚ
  followUps : List Str
  solutions : List JsonV

/-- Where the `try` block of the submit handler leaves off: the
analysis call raises; the analysis succeeds but the interviewer-reply
call raises; or both gateway calls return. -/
inductive SubmitOutcome where
  | analysisRaises
  | interviewerRaises (a : AnalysisResult)
  | ok (a : AnalysisResult) (response : Str)

/-- The combined explanation the handler builds from the voice
transcript and the typed text, with their tag prefixes. -/
def combinedExplanation (voiceTranscript textResp : Str) : Str :=
  (if voiceTranscript ≠ [] then "[Voice]: ".data ++ voiceTranscript ++ ['\n'] else []) ++
  (if textResp ≠ [] then "[Text]: ".data ++ textResp else [])

/-- The candidate chat message the handler builds from the code block
and the combined explanation. -/
def candidateMessage (code combined : Str) : Str :=
  (if pyStrip code ≠ [] then
    "**Code:**\n```python\n".data ++ code ++ "\n```\n".data else []) ++
  (if pyStrip combined ≠ [] then "\n**Explanation:** ".data ++ combined else [])

/-- Model of the submit-response handler of the DSA interview page.
In order: the empty-input guard (an error message only, no state
change); appending the candidate message to the in-memory conversation
and to `chat_messages`; persisting the `code_snapshot` and
`conversation` recording events; heuristic memory extraction (modelled
by its `save_user_memory` calls `memSaves`); then the `try` block — on
success the question row is updated with the analysis, the interviewer
reply is persisted; when the analysis (or the later interviewer call)
raises, the `except` branch appends a system notice to the in-memory
conversation and updates the question row with the raw response only.
The voice transcript is cleared in every non-guard path. -/
def submit_response (st : OrchestratorState)
    (sessionId questionDbId questionNumber now : Nat)
    (memSaves : List SaveMemArgs) (outcome : SubmitOutcome)
    (code textResp : Str) : OrchestratorState :=
  let voiceTranscript := st.dsaVoiceTranscript
  let combined := combinedExplanation voiceTranscript textResp
  if pyStrip combined = [] ∧ pyStrip code = [] then st
  else
    let candidateMsg := candidateMessage code combined
    let st1 := { st with dsaConversation :=
      st.dsaConversation ++ [("candidate".data, candidateMsg)] }
    let db1 := (save_chat_message st1.db now sessionId "candidate".data
      candidateMsg "text".data).1
    let db2 := (save_recording_event db1 now sessionId "code_snapshot".data
      (JsonV.obj [("code".data, JsonV.str code),
                  ("question_number".data, JsonV.num ((questionNumber : ℚ) + 1)),
                  ("explanation".data, JsonV.str combined)])).1
    let db3 := (save_recording_event db2 now sessionId "conversation".data
      (JsonV.obj [("role".data, JsonV.str "candidate".data),
                  ("content".data, JsonV.str candidateMsg)])).1
    let db4 := applySaveMems db3 memSaves
    match outcome with
    | .analysisRaises =>
      { st1 with
        db := update_question_response db4 questionDbId (some combined)
          (some code) (some voiceTranscript) none 0 0 0 [] [],
        dsaConversation := st1.dsaConversation ++
          [("system".data, "AI analysis unavailable. Your response has been recorded.".data)],
        dsaVoiceTranscript := [] }
    | .interviewerRaises a =>
      let db5 := update_question_response db4 questionDbId (some combined)
        (some code) (some voiceTranscript) (some a.rawText)
        (a.codeCorrectnessScore * 10) (a.approachScore * 10)
        (a.communicationScore * 10) a.followUps a.solutions
      let db6 := update_question_response db5 questionDbId (some combined)
        (some code) (some voiceTranscript) none 0 0 0 [] []
      { st1 with
        db := db6,
        dsaCurrentAnalysis := some a.raw,
        dsaConversation := st1.dsaConversation ++
          [("system".data, "AI analysis unavailable. Your response has been recorded.".data)],
        dsaVoiceTranscript := [] }
    | .ok a resp =>
      let db5 := update_question_response db4 questionDbId (some combined)
        (some code) (some voiceTranscript) (some a.rawText)
        (a.codeCorrectnessScore * 10) (a.approachScore * 10)
        (a.communicationScore * 10) a.followUps a.solutions
      let db6 := (save_chat_message db5 now sessionId "interviewer".data resp
        "text".data).1
      let db7 := (save_recording_event db6 now sessionId "analysis".data
        (JsonV.obj [("analysis".data, a.raw),
                    ("question_number".data, JsonV.num ((questionNumber : ℚ) + 1))])).1
      let db8 := (save_recording_event db7 now sessionId "conversation".data
        (JsonV.obj [("role".data, JsonV.str "interviewer".data),
                    ("content".data, JsonV.str resp)])).1
      { st1 with
        db := db8,
        dsaCurrentAnalysis := some a.raw,
        dsaConversation := st1.dsaConversation ++ [("interviewer".data, resp)],
        dsaLastAiMessage := resp,
        dsaVoiceTranscript := [] }

/-- Memory saves touch only the `user_memory` table. -/
theorem applySaveMems_preserves (as : List SaveMemArgs) :
    ∀ db : DbState, (applySaveMems db as).chatMessages = db.chatMessages ∧
      (applySaveMems db as).recordings = db.recordings ∧
      (applySaveMems db as).questions = db.questions := by
  induction as with
  | nil => exact fun db => ⟨rfl, rfl, rfl⟩
  | cons a rest ih =>
    intro db
    have hstep : (applySaveMem db a).chatMessages = db.chatMessages ∧
        (applySaveMem db a).recordings = db.recordings ∧
        (applySaveMem db a).questions = db.questions := by
      unfold applySaveMem save_user_memory
      split <;> exact ⟨rfl, rfl, rfl⟩
    obtain ⟨h1, h2, h3⟩ := ih (applySaveMem db a)
    exact ⟨h1.trans hstep.1, h2.trans hstep.2.1, h3.trans hstep.2.2⟩

/-- A base state: one session, one issued question, empty conversation
and transcript. -/
def stBase : OrchestratorState :=
  { db := (save_question dbOneSession 1 1 "Reverse a list".data "coding".data
      "medium".data).1,
    dsaConversation := [], dsaVoiceTranscript := [], dsaLastAiMessage := [],
    dsaCurrentAnalysis := none }

/-- C6: when the analysis call raises after a submission that passes the
input guard, the candidate's chat message, the code-snapshot and
conversation recording events, and the candidate's raw response
text/code/transcript on the question row are all still persisted: the
chat and recording writes precede the gateway call, and the `except`
branch re-persists the response fields onto the question row. -/
theorem C6_partial_failure (st : OrchestratorState)
    (sessionId questionDbId questionNumber now : Nat)
    (memSaves : List SaveMemArgs) (code textResp : Str)
    (hguard : ¬(pyStrip (combinedExplanation st.dsaVoiceTranscript textResp) = [] ∧
      pyStrip code = [])) :
    (submit_response st sessionId questionDbId questionNumber now memSaves
        SubmitOutcome.analysisRaises code textResp).db.chatMessages =
      st.db.chatMessages ++
        [⟨st.db.chatMessages.length + 1, sessionId, "candidate".data,
          candidateMessage code (combinedExplanation st.dsaVoiceTranscript textResp),
          "text".data, now⟩] ∧
    (submit_response st sessionId questionDbId questionNumber now memSaves
        SubmitOutcome.analysisRaises code textResp).db.recordings =
      st.db.recordings ++
        [⟨st.db.recordings.length + 1, sessionId, "code_snapshot".data,
          JsonV.obj [("code".data, JsonV.str code),
                     ("question_number".data, JsonV.num ((questionNumber : ℚ) + 1)),
                     ("explanation".data,
                      JsonV.str (combinedExplanation st.dsaVoiceTranscript textResp))],
          now⟩,
         ⟨st.db.recordings.length + 1 + 1, sessionId, "conversation".data,
          JsonV.obj [("role".data, JsonV.str "candidate".data),
                     ("content".data,
                      JsonV.str (candidateMessage code
                        (combinedExplanation st.dsaVoiceTranscript textResp)))],
          now⟩] ∧
    ∀ q ∈ (submit_response st sessionId questionDbId questionNumber now memSaves
        SubmitOutcome.analysisRaises code textResp).db.questions,
      q.id = questionDbId →
        q.candidateResponseText =
          some (combinedExplanation st.dsaVoiceTranscript textResp) ∧
        q.candidateCode = some code ∧
        q.voiceTranscript = some st.dsaVoiceTranscript := by
  refine ⟨?_, ?_, ?_⟩
  · simp only [submit_response]
    rw [if_neg hguard]
    simp only [update_question_response]
    rw [(applySaveMems_preserves memSaves _).1]
    rfl
  · simp only [submit_response]
    rw [if_neg hguard]
    simp only [update_question_response]
    rw [(applySaveMems_preserves memSaves _).2.1]
    simp [save_recording_event, save_chat_message, List.append_assoc]
  · simp only [submit_response]
    rw [if_neg hguard]
    intro q hq hid
    simp only [update_question_response, List.mem_map] at hq
    obtain ⟨q₀, _, rfl⟩ := hq
    by_cases hqid : q₀.id = questionDbId
    · rw [if_pos hqid]
      exact ⟨rfl, rfl, rfl⟩
    · rw [if_neg hqid] at hid
      exact absurd hid hqid

/-- Witness for C6 on the base state with a concrete submission. -/
theorem C6_partial_failure_witness :
    (submit_response stBase 1 1 0 7 [] SubmitOutcome.analysisRaises
        "pass".data "brute force".data).db.chatMessages =
      stBase.db.chatMessages ++
        [⟨stBase.db.chatMessages.length + 1, 1, "candidate".data,
          candidateMessage "pass".data
            (combinedExplanation stBase.dsaVoiceTranscript "brute force".data),
          "text".data, 7⟩] ∧
    (submit_response stBase 1 1 0 7 [] SubmitOutcome.analysisRaises
        "pass".data "brute force".data).db.recordings =
      stBase.db.recordings ++
        [⟨stBase.db.recordings.length + 1, 1, "code_snapshot".data,
          JsonV.obj [("code".data, JsonV.str "pass".data),
                     ("question_number".data, JsonV.num ((0 : ℚ) + 1)),
                     ("explanation".data,
                      JsonV.str (combinedExplanation stBase.dsaVoiceTranscript
                        "brute force".data))],
          7⟩,
         ⟨stBase.db.recordings.length + 1 + 1, 1, "conversation".data,
          JsonV.obj [("role".data, JsonV.str "candidate".data),
                     ("content".data,
                      JsonV.str (candidateMessage "pass".data
                        (combinedExplanation stBase.dsaVoiceTranscript
                          "brute force".data)))],
          7⟩] ∧
    ∀ q ∈ (submit_response stBase 1 1 0 7 [] SubmitOutcome.analysisRaises
        "pass".data "brute force".data).db.questions,
      q.id = 1 →
        q.candidateResponseText =
          some (combinedExplanation stBase.dsaVoiceTranscript "brute force".data) ∧
        q.candidateCode = some "pass".data ∧
        q.voiceTranscript = some stBase.dsaVoiceTranscript :=
  C6_partial_failure stBase 1 1 0 7 [] "pass".data "brute force".data (by decide)

/-- C7: the claim fails on the code.  Submitting an empty code box
together with a whitespace-only text response — both empty after
trimming — is not rejected: the handler prefixes the text with a
`[Text]:` tag before testing emptiness, so the guard passes and a
candidate ChatMessage is persisted. -/
theorem C7_counterexample :
    pyStrip ([] : Str) = [] ∧ pyStrip [' '] = [] ∧
    (submit_response stBase 1 1 0 7 [] SubmitOutcome.analysisRaises
        [] [' ']).db.chatMessages.length =
      stBase.db.chatMessages.length + 1 :=
  ⟨rfl, rfl, rfl⟩

/-- C7 (amended): the submission is rejected with no state change
exactly when the tagged combination of voice transcript and text and
the code are both whitespace-only — in particular when the voice
transcript and text response are empty strings and the code trims to
empty, nothing is persisted and the whole state (conversation, chat
messages, recordings, question rows) is returned unchanged.  A
whitespace-only text or voice entry, however, passes the guard because
of the added tag prefix. -/
theorem C7_amended (st : OrchestratorState)
    (sessionId questionDbId questionNumber now : Nat)
    (memSaves : List SaveMemArgs) (outcome : SubmitOutcome) (code textResp : Str)
    (hguard : pyStrip (combinedExplanation st.dsaVoiceTranscript textResp) = [] ∧
      pyStrip code = []) :
    submit_response st sessionId questionDbId questionNumber now memSaves outcome
      code textResp = st := by
  simp only [submit_response]
  rw [if_pos hguard]

/-- Witness for C7 (amended): whitespace-only code, no voice, no text. -/
theorem C7_amended_witness :
    submit_response stBase 1 1 0 7 [] SubmitOutcome.analysisRaises [' '] [] =
      stBase :=
  C7_amended stBase 1 1 0 7 [] SubmitOutcome.analysisRaises [' '] [] ⟨rfl, rfl⟩

end InterviewSim
